import Mathlib

/-!
Shallow embedding of the "null" software graphics device
(`src/null/null_device.cpp` of the repository).

Modelling conventions, used uniformly below:

* Raw memory (byte buffers, pixel-word planes) is a total function
  `Nat → Nat` from offsets to stored values.  Freshly allocated storage
  (`new char[...]`, whose C contents are indeterminate) is modelled as the
  all-zero function; no claim inspects bytes that the code leaves unwritten.
* C null pointers are `Option.none`; a non-null pointer to memory is
  `some f` with `f` the pointed-to contents.
* `assert(...)` precondition checks are modelled by `Option`-returning
  operations: `none` is the fatal assertion failure.  `assert(context)`
  checks of the opaque context handle are not modelled (the context is the
  process-wide singleton and never null in the embedding).
* Fixed-width machine arithmetic is `Nat` with an explicit `% 2^w` exactly
  where the C types make overflow observable (the `uint16_t stride`
  accumulator, conversions to `uint32_t`).
* The device's fixed stream-slot array `m_VertexStreams[MAX_VERTEX_STREAM_COUNT]`
  is a function `Nat → VertexStream`; every loop of the source iterates over
  slot ids `0 .. MAX_VERTEX_STREAM_COUNT - 1` exactly as the C loops do.
-/

namespace dmGraphics

/-- The element-type enumeration `dmGraphics::Type` (order of the C enum,
starting at `TYPE_BYTE`). -/
inductive Typ where
  | byte
  | ubyte
  | short
  | ushort
  | int
  | uint
  | float

/-- The `TYPE_SIZE` table of `null_device.cpp` (lines 12-21): byte size of one
component of each element type, on the ILP32/LP64 platforms the device
targets (`sizeof(char) = 1`, `sizeof(short) = 2`, `sizeof(int) = 4`,
`sizeof(float) = 4`). -/
def TYPE_SIZE : Typ → Nat
  | .byte => 1
  | .ubyte => 1
  | .short => 2
  | .ushort => 2
  | .int => 4
  | .uint => 4
  | .float => 4

/-- Modelled from the spec: `MAX_VERTEX_STREAM_COUNT` is declared in
`null_device.h`, which is not among the sources; the spec fixes the device at
32 stream slots ("the sum over all 32 slots", "a fixed-size table indexed by
stream id (0..`MAX_VERTEX_STREAM_COUNT`-1)"). -/
def MAX_VERTEX_STREAM_COUNT : Nat := 32

/-- `memcpy(dst + dstOff, src + srcOff, n)` on byte memories: positions
`[dstOff, dstOff + n)` of the destination take the corresponding source
bytes, every other position is untouched. -/
def memcpy (dst : Nat → Nat) (dstOff : Nat) (src : Nat → Nat) (srcOff n : Nat) : Nat → Nat :=
  fun p => if dstOff ≤ p ∧ p < dstOff + n then src (srcOff + (p - dstOff)) else dst p

/-- Little-endian read of `n` bytes of `mem` starting at byte offset `off`
(the x86 layout under the C pointer casts of `GetIndex`).  Each cell is read
as one byte (`% 256`). -/
def readLE (mem : Nat → Nat) : Nat → Nat → Nat
  | _off, 0 => 0
  | off, n + 1 => mem off % 256 + 256 * readLE mem (off + 1) n

/-- The two's-complement value of a stored `w`-bit pattern `v` (`v < 2^w`):
the signed integer a C `char` / `short` / `int` read yields. -/
def twosComplement (w v : Nat) : Int :=
  if v < 2 ^ (w - 1) then (v : Int) else (v : Int) - 2 ^ w

/-- C conversion of an integer value to `uint32_t`: reduction modulo `2^32`. -/
def toU32 (x : Int) : Nat := (x % (2 : Int) ^ 32).toNat

/-- `GetIndex` (`null_device.cpp` lines 273-301): decode the `index`-th
element of the index buffer according to the element type, as the value of
the C expression `result = ((T*)index_buffer)[index]` with `result` a
`uint32_t`.  Signed types read a two's-complement value which the assignment
converts modulo `2^32`; unsigned types read the stored value directly.  The
`TYPE_FLOAT` case reads an IEEE-754 float and converts it to an integer;
floating-point arithmetic is outside this integer model, so that case is
`none` (no claim depends on it). -/
def GetIndex (t : Typ) (ib : Nat → Nat) (i : Nat) : Option Nat :=
  match t with
  | .byte => some (toU32 (twosComplement 8 (readLE ib i 1)))
  | .ubyte => some (readLE ib i 1)
  | .short => some (toU32 (twosComplement 16 (readLE ib (2 * i) 2)))
  | .ushort => some (readLE ib (2 * i) 2)
  | .int => some (toU32 (twosComplement 32 (readLE ib (4 * i) 4)))
  | .uint => some (readLE ib (4 * i) 4)
  | .float => none

/-- One device stream slot (`struct VertexStream`): a non-owning source
pointer into a vertex buffer, the recorded element byte size, the stride, and
the owned transient compaction buffer. -/
structure VertexStream where
  m_Source : Option (Nat → Nat)
  m_Size : Nat
  m_Stride : Nat
  m_Buffer : Option (Nat → Nat)

/-- A stream slot as `NewDevice`'s `memset(gdevice.m_VertexStreams, 0, ...)`
leaves it: null source, size 0, stride 0, null transient buffer. -/
def emptyStream : VertexStream :=
  { m_Source := none, m_Size := 0, m_Stride := 0, m_Buffer := none }

/-- `SetVertexStream` (`null_device.cpp` lines 248-258).  Asserts the source
pointer argument is non-null and that the target slot is disabled
(`s.m_Source == 0x0 && s.m_Buffer == 0x0`); then records the source, the
element byte size `size * TYPE_SIZE[type]` and the stride.  `none` models the
fatal assertion failure. -/
def SetVertexStream (s : Nat → VertexStream) (stream size : Nat) (type : Typ)
    (stride : Nat) (vertex_buffer : Option (Nat → Nat)) : Option (Nat → VertexStream) :=
  match vertex_buffer with
  | none => none
  | some src =>
    if (s stream).m_Source.isNone && (s stream).m_Buffer.isNone then
      some (fun j =>
        if j = stream then
          { m_Source := some src
            m_Size := size * TYPE_SIZE type
            m_Stride := stride
            m_Buffer := (s stream).m_Buffer }
        else s j)
    else none

/-- `DisableVertexStream` (`null_device.cpp` lines 260-271): zero the
recorded size, free the transient buffer if any, clear the source pointer.
The stride field is not touched. -/
def DisableVertexStream (s : Nat → VertexStream) (stream : Nat) : Nat → VertexStream :=
  fun j =>
    if j = stream then
      { m_Source := none, m_Size := 0, m_Stride := (s stream).m_Stride, m_Buffer := none }
    else s j

/-- One slot of a vertex declaration (`struct VertexElement`): component
count (`m_Size`) and element type.  A zeroed slot has `m_Size = 0`. -/
structure VertexElement where
  m_Size : Nat
  m_Type : Typ

/-- `struct VertexDeclaration`: the fixed table of elements indexed by
stream id. -/
structure VertexDeclaration where
  m_Elements : Nat → VertexElement

/-- Byte size of declaration slot `i`:
`m_Elements[i].m_Size * TYPE_SIZE[m_Elements[i].m_Type - TYPE_BYTE]`. -/
def elementByteSize (vd : VertexDeclaration) (i : Nat) : Nat :=
  (vd.m_Elements i).m_Size * TYPE_SIZE (vd.m_Elements i).m_Type

/-- The stride computation of `EnableVertexDeclaration` (`null_device.cpp`
lines 223-225): a `uint16_t` accumulator summed over all
`MAX_VERTEX_STREAM_COUNT` slots, hence each `+=` wraps modulo `2^16`. -/
def computeStride (vd : VertexDeclaration) : Nat :=
  (List.range MAX_VERTEX_STREAM_COUNT).foldl
    (fun acc i => (acc + elementByteSize vd i) % 65536) 0

/-- The binding loop of `EnableVertexDeclaration` (lines 226-235), processing
`n` slots starting at slot `i` with accumulated byte offset `off` into the
vertex buffer `vb`: each non-empty slot is bound via `SetVertexStream` at the
current offset, which then advances by the slot's element byte size. -/
def enableAux (vd : VertexDeclaration) (vb : Nat → Nat) (stride : Nat) :
    Nat → Nat → Nat → (Nat → VertexStream) → Option (Nat → VertexStream)
  | 0, _i, _off, s => some s
  | n + 1, i, off, s =>
    if 0 < (vd.m_Elements i).m_Size then
      match SetVertexStream s i (vd.m_Elements i).m_Size (vd.m_Elements i).m_Type stride
          (some (fun k => vb (off + k))) with
      | none => none
      | some s1 => enableAux vd vb stride n (i + 1) (off + elementByteSize vd i) s1
    else
      enableAux vd vb stride n (i + 1) off s

/-- `EnableVertexDeclaration` (`null_device.cpp` lines 217-236) acting on the
device's stream-slot table; `vb` is the vertex buffer's primary storage
(`vb->m_Buffer`), into which each binding points at its accumulated offset. -/
def EnableVertexDeclaration (s : Nat → VertexStream) (vd : VertexDeclaration)
    (vb : Nat → Nat) : Option (Nat → VertexStream) :=
  enableAux vd vb (computeStride vd) MAX_VERTEX_STREAM_COUNT 0 0 s

/-- The allocation loop of `DrawElements` (lines 307-314): every active slot
(`m_Size > 0`) receives a freshly allocated transient compaction buffer of
`m_Size * count` bytes (fresh memory modelled as all zeros). -/
def allocStreams (s : Nat → VertexStream) : Nat → VertexStream :=
  fun j =>
    if j < MAX_VERTEX_STREAM_COUNT ∧ 0 < (s j).m_Size then
      { s j with m_Buffer := some (fun _ => 0) }
    else s j

/-- The per-stream copy of one gather iteration (line 322):
`memcpy(buffer + i*size, source + index*stride, size)`. -/
def gatherStream (i idx : Nat) (vs : VertexStream) : VertexStream :=
  match vs.m_Source, vs.m_Buffer with
  | some src, some buf =>
    { vs with m_Buffer := some (memcpy buf (i * vs.m_Size) src (idx * vs.m_Stride) vs.m_Size) }
  | _, _ => vs

/-- Check that every active slot has a non-null source and a non-null
transient buffer: exactly the condition under which the C gather loop's
pointer dereferences are defined.  A violation makes the model fail
(`drawStep` returns `none`) where the C code would dereference null. -/
def streamsReady (s : Nat → VertexStream) : Bool :=
  (List.range MAX_VERTEX_STREAM_COUNT).all fun j =>
    ((s j).m_Size == 0) || ((s j).m_Source.isSome && (s j).m_Buffer.isSome)

/-- Iteration `i` of the gather loop of `DrawElements` (lines 315-324):
decode the `i`-th index, then for every active slot copy `m_Size` bytes from
`source + index * stride` to `buffer + i * m_Size`.  The per-slot updates of
the inner `j` loop touch pairwise distinct slots, so the loop is modelled as
a pointwise update of the slot table. -/
def drawStep (t : Typ) (ib : Nat → Nat) (s : Nat → VertexStream) (i : Nat) :
    Option (Nat → VertexStream) :=
  match GetIndex t ib i with
  | none => none
  | some idx =>
    if streamsReady s then
      some (fun j =>
        if j < MAX_VERTEX_STREAM_COUNT ∧ 0 < (s j).m_Size then gatherStream i idx (s j)
        else s j)
    else none

/-- The outer gather loop: `drawLoop t ib n s` runs iterations
`i = 0, 1, ..., n-1` of `drawStep` in order. -/
def drawLoop (t : Typ) (ib : Nat → Nat) : Nat → (Nat → VertexStream) → Option (Nat → VertexStream)
  | 0, s => some s
  | n + 1, s =>
    match drawLoop t ib n s with
    | none => none
    | some s1 => drawStep t ib s1 n

/-- `DrawElements` restricted to the stream-slot table: allocate compaction
buffers, then gather `count` vertices. -/
def drawStreams (s : Nat → VertexStream) (count : Nat) (t : Typ) (ib : Nat → Nat) :
    Option (Nat → VertexStream) :=
  drawLoop t ib count (allocStreams s)

/-- A vertex buffer object (`struct VertexBuffer`): owned primary storage,
the optional outstanding map snapshot (`m_Copy`), and the byte size. -/
structure VertexBuffer where
  m_Buffer : Nat → Nat
  m_Copy : Option (Nat → Nat)
  m_Size : Nat

/-- An index buffer object (`struct IndexBuffer`); same layout as
`VertexBuffer`. -/
structure IndexBuffer where
  m_Buffer : Nat → Nat
  m_Copy : Option (Nat → Nat)
  m_Size : Nat

/-- `MapVertexBuffer` (`null_device.cpp` lines 136-142): unconditionally
allocate a snapshot of `m_Size` bytes, copy the primary storage into it, and
store it in `m_Copy` (the returned mutable view).  There is no check of an
already outstanding snapshot. -/
def MapVertexBuffer (vb : VertexBuffer) : VertexBuffer :=
  { vb with m_Copy := some (memcpy (fun _ => 0) 0 vb.m_Buffer 0 vb.m_Size) }

/-- `UnmapVertexBuffer` (lines 144-151): copy the snapshot back over the
primary storage, free it, clear `m_Copy`, return `true`.  With a null
snapshot the `memcpy` dereferences null: modelled as `none`. -/
def UnmapVertexBuffer (vb : VertexBuffer) : Option (VertexBuffer × Bool) :=
  match vb.m_Copy with
  | none => none
  | some c =>
    some ({ vb with m_Buffer := memcpy vb.m_Buffer 0 c 0 vb.m_Size, m_Copy := none }, true)

/-- `DeleteVertexBuffer` (lines 116-122): asserts `m_Copy == 0x0` (no map
outstanding) before freeing; `none` models the fatal assertion failure. -/
def DeleteVertexBuffer (vb : VertexBuffer) : Option Unit :=
  if vb.m_Copy.isSome then none else some ()

/-- `MapIndexBuffer` (lines 183-189); identical to `MapVertexBuffer`. -/
def MapIndexBuffer (ib : IndexBuffer) : IndexBuffer :=
  { ib with m_Copy := some (memcpy (fun _ => 0) 0 ib.m_Buffer 0 ib.m_Size) }

/-- `UnmapIndexBuffer` (lines 191-198); identical to `UnmapVertexBuffer`. -/
def UnmapIndexBuffer (ib : IndexBuffer) : Option (IndexBuffer × Bool) :=
  match ib.m_Copy with
  | none => none
  | some c =>
    some ({ ib with m_Buffer := memcpy ib.m_Buffer 0 c 0 ib.m_Size, m_Copy := none }, true)

/-- `DeleteIndexBuffer` (lines 163-169): asserts `m_Copy == 0x0`. -/
def DeleteIndexBuffer (ib : IndexBuffer) : Option Unit :=
  if ib.m_Copy.isSome then none else some ()

/-- One plane set (`struct RenderBuffer`): the four planes, each an array of
32-bit words indexed by pixel. -/
structure RenderBuffer where
  m_ColorBuffer : Nat → Nat
  m_DepthBuffer : Nat → Nat
  m_AccumBuffer : Nat → Nat
  m_StencilBuffer : Nat → Nat

/-- A freshly allocated plane set (`new char[4*w*h]` four times; fresh memory
modelled as zeros). -/
def freshPlanes : RenderBuffer :=
  { m_ColorBuffer := fun _ => 0
    m_DepthBuffer := fun _ => 0
    m_AccumBuffer := fun _ => 0
    m_StencilBuffer := fun _ => 0 }

/-- The device's `m_RenderBuffer` pointer: it aims either at the device's own
default framebuffer or at the private plane set of a render target
(identified by its handle). -/
inductive RenderBufferPtr where
  | framebuffer
  | target (id : Nat)

/-- A texture object (`struct Texture`): format, dimensions, owned storage. -/
structure Texture where
  m_Format : Nat
  m_Width : Nat
  m_Height : Nat
  m_Data : Option (Nat → Nat)

/-- `NewTexture` (lines 462-467): a texture with null storage. -/
def NewTexture : Texture :=
  { m_Format := 0, m_Width := 0, m_Height := 0, m_Data := none }

/-- `SetTextureData` (lines 469-482): free existing storage, allocate anew
(fresh memory modelled as zeros), record format and dimensions, copy
`data_size` bytes from the payload. -/
def SetTextureData (t : Texture) (_mip width height format : Nat)
    (data : Option (Nat → Nat)) (data_size : Nat) : Texture :=
  { t with
    m_Format := format
    m_Width := width
    m_Height := height
    m_Data := some (memcpy (fun _ => 0) 0 (data.getD fun _ => 0) 0 data_size) }

/-- A render target (`struct RenderTarget`): the color-attachment texture and
the private plane set. -/
structure RenderTarget where
  m_Texture : Texture
  m_RenderBuffer : RenderBuffer

/-- `NewRenderTarget` (lines 413-425): create a texture sized `width × height`
(via `SetTextureData` with a null payload of size 0) and allocate the four
private planes. -/
def NewRenderTarget (width height format : Nat) : RenderTarget :=
  { m_Texture := SetTextureData NewTexture 0 width height format none 0
    m_RenderBuffer := freshPlanes }

/-- The device singleton state (`struct Device`, fields as used by
`null_device.cpp`).  The two constant-register banks hold opaque `Vector4`
values; no claim inspects their contents, so each bank is a function from
register index to an opaque word. -/
structure Device where
  m_DisplayWidth : Nat
  m_DisplayHeight : Nat
  m_FrameBuffer : RenderBuffer
  m_RenderBuffer : RenderBufferPtr
  m_VertexStreams : Nat → VertexStream
  m_VertexProgram : Option Nat
  m_FragmentProgram : Option Nat
  m_VertexProgramRegisters : Nat → Nat
  m_FragmentProgramRegisters : Nat → Nat
  m_RedMask : Bool
  m_GreenMask : Bool
  m_BlueMask : Bool
  m_AlphaMask : Bool
  m_DepthMask : Bool
  m_IndexMask : Nat
  m_StencilMask : Nat
  m_Opened : Bool

/-- `NewDevice` (lines 42-59): zeroed stream slots and register banks, the
given display size, freshly allocated default-framebuffer planes, the active
plane pointer at the default framebuffer, no bound programs.  The masks live
in the zero-initialised global `gdevice`. -/
def NewDevice (width height : Nat) : Device :=
  { m_DisplayWidth := width
    m_DisplayHeight := height
    m_FrameBuffer := freshPlanes
    m_RenderBuffer := .framebuffer
    m_VertexStreams := fun _ => emptyStream
    m_VertexProgram := none
    m_FragmentProgram := none
    m_VertexProgramRegisters := fun _ => 0
    m_FragmentProgramRegisters := fun _ => 0
    m_RedMask := false
    m_GreenMask := false
    m_BlueMask := false
    m_AlphaMask := false
    m_DepthMask := false
    m_IndexMask := 0
    m_StencilMask := 0
    m_Opened := true }

/-- `DrawElements` (`null_device.cpp` lines 303-325) on the device: the two
loops act only on `gdevice.m_VertexStreams`.  The `prim_type` argument is
accepted and unused, as in the source. -/
def DrawElements (d : Device) (_prim_type count : Nat) (t : Typ) (ib : Nat → Nat) :
    Option Device :=
  (drawStreams d.m_VertexStreams count t ib).map fun vs => { d with m_VertexStreams := vs }

/-- The whole graphics state: the device singleton plus the heap of render
targets (addressed by handle), through which the active-plane pointer can be
followed. -/
structure GfxState where
  gdevice : Device
  renderTargets : Nat → RenderTarget

/-- Dereference `gdevice.m_RenderBuffer`: the currently active plane set. -/
def activePlanes (st : GfxState) : RenderBuffer :=
  match st.gdevice.m_RenderBuffer with
  | .framebuffer => st.gdevice.m_FrameBuffer
  | .target id => (st.renderTargets id).m_RenderBuffer

/-- Write a plane set back through `gdevice.m_RenderBuffer`. -/
def setActivePlanes (st : GfxState) (rb : RenderBuffer) : GfxState :=
  match st.gdevice.m_RenderBuffer with
  | .framebuffer => { st with gdevice := { st.gdevice with m_FrameBuffer := rb } }
  | .target id =>
    { st with
      renderTargets := fun j =>
        if j = id then { st.renderTargets j with m_RenderBuffer := rb } else st.renderTargets j }

/-- The 32-bit clear colour of `Clear` (line 82):
`(red << 24) | (green << 16) | (blue << 8) | alpha`, the components being
`uint8_t` (hence the `% 256`). -/
def packColour (red green blue alpha : Nat) : Nat :=
  ((red % 256) <<< 24) ||| ((green % 256) <<< 16) ||| ((blue % 256) <<< 8) ||| (alpha % 256)

/-- Fill the first `n` words of a plane with `v`. -/
def fillWords (n v : Nat) (plane : Nat → Nat) : Nat → Nat :=
  fun i => if i < n then v else plane i

/-- `Clear` (`null_device.cpp` lines 76-99): for each requested plane of the
*active* plane set, fill `m_DisplayWidth * m_DisplayHeight` words — the
colour plane with the packed colour, the depth plane with the depth value
(stored bit pattern, an opaque word here), the stencil plane with the stencil
word.  The flag bits of the `flags` bitmask are the three Booleans. -/
def Clear (st : GfxState) (clearColour clearDepth clearStencil : Bool)
    (red green blue alpha depth stencil : Nat) : GfxState :=
  let n := st.gdevice.m_DisplayWidth * st.gdevice.m_DisplayHeight
  let rb0 := activePlanes st
  let rb1 :=
    if clearColour then
      { rb0 with m_ColorBuffer := fillWords n (packColour red green blue alpha) rb0.m_ColorBuffer }
    else rb0
  let rb2 :=
    if clearDepth then { rb1 with m_DepthBuffer := fillWords n depth rb1.m_DepthBuffer } else rb1
  let rb3 :=
    if clearStencil then
      { rb2 with m_StencilBuffer := fillWords n stencil rb2.m_StencilBuffer }
    else rb2
  setActivePlanes st rb3

/-- `EnableRenderTarget` (lines 437-442): point `m_RenderBuffer` at the
target's private planes. -/
def EnableRenderTarget (st : GfxState) (id : Nat) : GfxState :=
  { st with gdevice := { st.gdevice with m_RenderBuffer := .target id } }

/-- `DisableRenderTarget` (lines 444-449): point `m_RenderBuffer` back at the
default framebuffer (the passed target handle is unused). -/
def DisableRenderTarget (st : GfxState) (_id : Nat) : GfxState :=
  { st with gdevice := { st.gdevice with m_RenderBuffer := .framebuffer } }

/-- The dimensions at which the active plane set was allocated (the `w` and
`h` the claims speak of): the display dimensions for the default framebuffer
(`NewDevice` and `SetViewport` allocate it at exactly those), and the
creation dimensions — recorded in the attached texture by `NewRenderTarget` —
for a render target. -/
def activePlaneDims (st : GfxState) : Nat × Nat :=
  match st.gdevice.m_RenderBuffer with
  | .framebuffer => (st.gdevice.m_DisplayWidth, st.gdevice.m_DisplayHeight)
  | .target id => ((st.renderTargets id).m_Texture.m_Width, (st.renderTargets id).m_Texture.m_Height)

end dmGraphics

namespace dmGraphics

/-! ### Helper lemmas -/

theorem memcpy_inside (dst src : Nat → Nat) (dstOff srcOff n p : Nat)
    (h1 : dstOff ≤ p) (h2 : p < dstOff + n) :
    memcpy dst dstOff src srcOff n p = src (srcOff + (p - dstOff)) := by
  simp [memcpy, h1, h2]

theorem memcpy_outside (dst src : Nat → Nat) (dstOff srcOff n p : Nat)
    (h : p < dstOff ∨ dstOff + n ≤ p) :
    memcpy dst dstOff src srcOff n p = dst p := by
  simp only [memcpy]
  rw [if_neg]
  omega

theorem readLE_lt (mem : Nat → Nat) (off n : Nat) : readLE mem off n < 2 ^ (8 * n) := by
  induction n generalizing off with
  | zero => simp [readLE]
  | succ n ih =>
    have h1 : mem off % 256 < 256 := Nat.mod_lt _ (by norm_num)
    have h2 := ih (off + 1)
    have h3 : 2 ^ (8 * (n + 1)) = 256 * 2 ^ (8 * n) := by
      rw [Nat.mul_succ, pow_add]
      ring
    simp only [readLE]
    omega

theorem fillWords_lt (n v : Nat) (plane : Nat → Nat) (i : Nat) (h : i < n) :
    fillWords n v plane i = v := by
  simp [fillWords, h]

theorem activePlanes_setActivePlanes (st : GfxState) (rb : RenderBuffer) :
    activePlanes (setActivePlanes st rb) = rb := by
  cases h : st.gdevice.m_RenderBuffer <;> simp [activePlanes, setActivePlanes, h]

/-! ### C10 -/

/-- Claim C10: the stream unbind primitive `DisableVertexStream` has no
precondition on the slot being bound and is idempotent: on any slot it leaves
recorded size 0, a null source pointer and a null transient compaction
buffer (the stride field keeps its previous value), and applying it twice
yields exactly the same state as applying it once. -/
theorem C10_disable_stream_idempotent (s : Nat → VertexStream) (stream : Nat) :
    (DisableVertexStream s stream) stream =
      { m_Source := none, m_Size := 0, m_Stride := (s stream).m_Stride, m_Buffer := none } ∧
    DisableVertexStream (DisableVertexStream s stream) stream = DisableVertexStream s stream := by
  constructor
  · simp [DisableVertexStream]
  · funext j
    by_cases h : j = stream
    · subst h
      simp [DisableVertexStream]
    · simp [DisableVertexStream, h]

/-! ### C6 -/

/-- Claim C6: binding a stream slot via `SetVertexStream` (with a non-null
source pointer argument) succeeds exactly when the slot is in the disabled
state — null recorded source and null transient compaction buffer; on a slot
where either is non-null the call is the fatal assertion failure (`none`). -/
theorem C6_bind_requires_disabled_slot (s : Nat → VertexStream) (stream size : Nat)
    (type : Typ) (stride : Nat) (src : Nat → Nat) :
    (SetVertexStream s stream size type stride (some src)).isSome = true ↔
      ((s stream).m_Source = none ∧ (s stream).m_Buffer = none) := by
  cases hs : (s stream).m_Source <;> cases hb : (s stream).m_Buffer <;>
    simp [SetVertexStream, hs, hb]

end dmGraphics

namespace dmGraphics

/-! ### C3 -/

/-- A vertex buffer with a map already outstanding: primary byte 7, snapshot
byte 3. -/
def vbMapped : VertexBuffer :=
  { m_Buffer := fun _ => 7, m_Copy := some fun _ => 3, m_Size := 1 }

/-- Claim C3 counterexample: on a buffer whose snapshot is outstanding
(`m_Copy` non-null), `MapVertexBuffer` does not fail — it installs a second,
fresh snapshot of the primary contents (byte 7), distinct from the
outstanding snapshot (byte 3).  The claimed fatal precondition check does not
exist in the map operation. -/
theorem C3_counterexample :
    vbMapped.m_Copy.isSome = true ∧
    ((MapVertexBuffer vbMapped).m_Copy.getD fun _ => 0) 0 = 7 ∧
    (vbMapped.m_Copy.getD fun _ => 0) 0 = 3 ∧
    (7 : Nat) ≠ 3 := by
  refine ⟨rfl, rfl, rfl, by decide⟩

/-- Claim C3 as amended: mapping a vertex or index buffer never fails and
performs no outstanding-map check — it always installs a fresh snapshot of
the buffer's current primary contents, replacing (and leaking) any
outstanding one.  The at-most-one-outstanding-map discipline is enforced
instead by the fatal precondition check of buffer deletion, which succeeds
exactly when no snapshot is outstanding. -/
theorem C3_amended_map_unchecked (vb : VertexBuffer) (ib : IndexBuffer) :
    (∃ f, (MapVertexBuffer vb).m_Copy = some f ∧
      ∀ k, k < vb.m_Size → f k = vb.m_Buffer k) ∧
    ((DeleteVertexBuffer vb).isSome = true ↔ vb.m_Copy = none) ∧
    (∃ g, (MapIndexBuffer ib).m_Copy = some g ∧
      ∀ k, k < ib.m_Size → g k = ib.m_Buffer k) ∧
    ((DeleteIndexBuffer ib).isSome = true ↔ ib.m_Copy = none) := by
  refine ⟨⟨_, rfl, ?_⟩, ?_, ⟨_, rfl, ?_⟩, ?_⟩
  · intro k hk
    rw [memcpy_inside _ _ _ _ _ _ (Nat.zero_le k) (by omega)]
    simp
  · cases h : vb.m_Copy <;> simp [DeleteVertexBuffer, h]
  · intro k hk
    rw [memcpy_inside _ _ _ _ _ _ (Nat.zero_le k) (by omega)]
    simp
  · cases h : ib.m_Copy <;> simp [DeleteIndexBuffer, h]

/-! ### C4 -/

/-- Claim C4: the map / overwrite-view / unmap round trip.  Mapping a buffer,
overwriting the returned view (the snapshot) with data `D`, then unmapping,
leaves the primary storage equal to `D` on all `m_Size` bytes (and untouched
beyond them), with the snapshot freed (`m_Copy = none`), the size unchanged,
and `unmap` returning `true`.  Stated for vertex and index buffers. -/
theorem C4_map_write_unmap_roundtrip (vb : VertexBuffer) (D : Nat → Nat)
    (ib : IndexBuffer) (E : Nat → Nat) :
    (∃ vb2, UnmapVertexBuffer { MapVertexBuffer vb with m_Copy := some D } = some (vb2, true) ∧
      (∀ k, k < vb.m_Size → vb2.m_Buffer k = D k) ∧
      (∀ k, vb.m_Size ≤ k → vb2.m_Buffer k = vb.m_Buffer k) ∧
      vb2.m_Copy = none ∧ vb2.m_Size = vb.m_Size) ∧
    (∃ ib2, UnmapIndexBuffer { MapIndexBuffer ib with m_Copy := some E } = some (ib2, true) ∧
      (∀ k, k < ib.m_Size → ib2.m_Buffer k = E k) ∧
      (∀ k, ib.m_Size ≤ k → ib2.m_Buffer k = ib.m_Buffer k) ∧
      ib2.m_Copy = none ∧ ib2.m_Size = ib.m_Size) := by
  refine ⟨⟨_, rfl, ?_, ?_, rfl, rfl⟩, ⟨_, rfl, ?_, ?_, rfl, rfl⟩⟩
  · intro k hk
    show memcpy vb.m_Buffer 0 D 0 vb.m_Size k = D k
    rw [memcpy_inside _ _ _ _ _ _ (Nat.zero_le k) (by omega)]
    simp
  · intro k hk
    show memcpy vb.m_Buffer 0 D 0 vb.m_Size k = vb.m_Buffer k
    rw [memcpy_outside _ _ _ _ _ _ (Or.inr (by omega))]
  · intro k hk
    show memcpy ib.m_Buffer 0 E 0 ib.m_Size k = E k
    rw [memcpy_inside _ _ _ _ _ _ (Nat.zero_le k) (by omega)]
    simp
  · intro k hk
    show memcpy ib.m_Buffer 0 E 0 ib.m_Size k = ib.m_Buffer k
    rw [memcpy_outside _ _ _ _ _ _ (Or.inr (by omega))]

end dmGraphics

namespace dmGraphics

/-! ### C2 -/

/-- Claim C2 counterexample: a signed-byte index whose stored bit pattern is
`0xFF` decodes to `0xFFFFFFFF` (the `char` read yields -1, which the
`uint32_t` assignment sign-extends), not to `0x000000FF` as the claim
states. -/
theorem C2_counterexample :
    GetIndex Typ.byte (fun _ => 255) 0 = some 4294967295 ∧ (4294967295 : Nat) ≠ 255 := by
  exact ⟨by decide, by decide⟩

/-- Claim C2 as amended: the unsigned index types decode by zero-extending
widening (the little-endian stored value itself), but the signed types
decode by *sign-extending* widening — a stored `w`-bit pattern at or above
`2^(w-1)` decodes to `2^32 - 2^w` plus the pattern (so signed byte `0xFF`
gives `0xFFFFFFFF`); signed-32 reads are taken modulo `2^32`, which leaves
the stored word unchanged.  The float-typed decode is a floating read,
outside this integer model. -/
theorem C2_amended_decode_sign_extends (ib : Nat → Nat) (i : Nat) :
    GetIndex Typ.ubyte ib i = some (readLE ib i 1) ∧
    GetIndex Typ.ushort ib i = some (readLE ib (2 * i) 2) ∧
    GetIndex Typ.uint ib i = some (readLE ib (4 * i) 4) ∧
    GetIndex Typ.byte ib i =
      some (if readLE ib i 1 < 128 then readLE ib i 1 else 4294967040 + readLE ib i 1) ∧
    GetIndex Typ.short ib i =
      some (if readLE ib (2 * i) 2 < 32768 then readLE ib (2 * i) 2
            else 4294901760 + readLE ib (2 * i) 2) ∧
    GetIndex Typ.int ib i = some (readLE ib (4 * i) 4) ∧
    GetIndex Typ.float ib i = none := by
  have h1 : readLE ib i 1 < 256 := by
    have := readLE_lt ib i 1
    norm_num at this
    exact this
  have h2 : readLE ib (2 * i) 2 < 65536 := by
    have := readLE_lt ib (2 * i) 2
    norm_num at this
    exact this
  have h4 : readLE ib (4 * i) 4 < 4294967296 := by
    have := readLE_lt ib (4 * i) 4
    norm_num at this
    exact this
  refine ⟨rfl, rfl, rfl, ?_, ?_, ?_, rfl⟩
  · simp only [GetIndex, toU32, twosComplement, Option.some.injEq]
    norm_num
    split_ifs <;> omega
  · simp only [GetIndex, toU32, twosComplement, Option.some.injEq]
    norm_num
    split_ifs <;> omega
  · simp only [GetIndex, toU32, twosComplement, Option.some.injEq]
    norm_num
    split_ifs <;> omega

end dmGraphics

namespace dmGraphics

/-! ### C7 -/

/-- The colour plane of the active plane set after `Clear` with the colour
flag: the first `m_DisplayWidth * m_DisplayHeight` words (the *display*
dimensions, whatever the active plane set's own allocation size) are the
packed colour; the depth/stencil flags do not affect the colour plane. -/
theorem clear_activeColor (st : GfxState) (cd cs : Bool) (r g b a dw sw : Nat) :
    (activePlanes (Clear st true cd cs r g b a dw sw)).m_ColorBuffer =
      fillWords (st.gdevice.m_DisplayWidth * st.gdevice.m_DisplayHeight)
        (packColour r g b a) (activePlanes st).m_ColorBuffer := by
  cases cd <;> cases cs <;> simp [Clear, activePlanes_setActivePlanes]

/-- A device opened at 2×2 whose render-target heap holds 4×4 targets. -/
def stA : GfxState :=
  { gdevice := NewDevice 2 2, renderTargets := fun _ => NewRenderTarget 4 4 0 }

/-- Claim C7 counterexample: with the display at 2×2 and a 4×4 render target
active, the active plane set has width 4 and height 4, yet `Clear` with the
colour flag fills only `2*2 = 4` pixel words: pixel word 5 (which is
`< 4*4`) keeps its previous value 0 instead of the packed colour.  The fill
count is the device's display size, not the active plane set's. -/
theorem C7_counterexample :
    activePlaneDims (EnableRenderTarget stA 0) = (4, 4) ∧ 5 < 4 * 4 ∧
    (activePlanes
        (Clear (EnableRenderTarget stA 0) true false false 10 20 30 255 0 0)).m_ColorBuffer 5
      = 0 ∧
    packColour 10 20 30 255 ≠ 0 := by
  refine ⟨rfl, by decide, rfl, by decide⟩

/-- Claim C7 as amended: `clear` with the colour flag and 8-bit components
writes the 32-bit word `(r<<24)|(g<<16)|(b<<8)|a` into pixel words
`0 ≤ i < DisplayWidth*DisplayHeight` of the active colour plane — the count
is the *display* dimensions, so it covers every pixel word of the active
plane set exactly when that set's dimensions equal the display's (always
true for the default framebuffer, and for render targets of the display's
size); in particular RGBA = (10,20,30,255) on a 2×2 display fills all 4
pixels with `0x0A141EFF`. -/
theorem C7_amended_clear_colour_fill (st : GfxState) (cd cs : Bool)
    (r g b a dw sw : Nat) (i : Nat)
    (hi : i < st.gdevice.m_DisplayWidth * st.gdevice.m_DisplayHeight) :
    (activePlanes (Clear st true cd cs r g b a dw sw)).m_ColorBuffer i =
      packColour r g b a := by
  rw [clear_activeColor, fillWords_lt _ _ _ _ hi]

/-- Claim C7 witness: on the 2×2 default framebuffer, pixel word 3 of the
colour plane after `Clear(colour, 10, 20, 30, 255)` is the packed word,
which equals `0x0A141EFF`. -/
theorem C7_amended_clear_colour_fill_witness :
    (3 < stA.gdevice.m_DisplayWidth * stA.gdevice.m_DisplayHeight) ∧
    (activePlanes (Clear stA true false false 10 20 30 255 0 0)).m_ColorBuffer 3 =
      packColour 10 20 30 255 ∧
    packColour 10 20 30 255 = 0x0A141EFF := by
  exact ⟨by decide,
    C7_amended_clear_colour_fill stA false false 10 20 30 255 0 0 3 (by decide), by decide⟩

/-! ### C8 -/

/-- Claim C8: after `EnableRenderTarget(RT)`, a clear with the colour flag
writes the packed colour into RT's private colour plane (over the display's
pixel words) and leaves the default framebuffer — and every other render
target — unchanged; after `DisableRenderTarget`, the same clear writes into
the default framebuffer's colour plane and leaves every render target's
private planes unchanged. -/
theorem C8_render_target_clear_isolation (st : GfxState) (id : Nat) (cd cs : Bool)
    (r g b a dw sw : Nat) :
    ((Clear (EnableRenderTarget st id) true cd cs r g b a dw sw).gdevice.m_FrameBuffer
        = st.gdevice.m_FrameBuffer ∧
      (∀ i, i < st.gdevice.m_DisplayWidth * st.gdevice.m_DisplayHeight →
        ((Clear (EnableRenderTarget st id) true cd cs r g b a dw sw).renderTargets
            id).m_RenderBuffer.m_ColorBuffer i = packColour r g b a) ∧
      (∀ j, j ≠ id →
        (Clear (EnableRenderTarget st id) true cd cs r g b a dw sw).renderTargets j
          = st.renderTargets j)) ∧
    ((Clear (DisableRenderTarget st id) true cd cs r g b a dw sw).renderTargets
        = st.renderTargets ∧
      (∀ i, i < st.gdevice.m_DisplayWidth * st.gdevice.m_DisplayHeight →
        (Clear (DisableRenderTarget st id) true cd cs r g b a dw
            sw).gdevice.m_FrameBuffer.m_ColorBuffer i = packColour r g b a)) := by
  refine ⟨⟨?_, ?_, ?_⟩, ⟨?_, ?_⟩⟩
  · cases cd <;> cases cs <;>
      simp [Clear, setActivePlanes, activePlanes, EnableRenderTarget]
  · intro i hi
    cases cd <;> cases cs <;>
      simp [Clear, setActivePlanes, activePlanes, EnableRenderTarget, fillWords, hi]
  · intro j hj
    cases cd <;> cases cs <;>
      simp [Clear, setActivePlanes, activePlanes, EnableRenderTarget, hj]
  · cases cd <;> cases cs <;>
      simp [Clear, setActivePlanes, activePlanes, DisableRenderTarget]
  · intro i hi
    cases cd <;> cases cs <;>
      simp [Clear, setActivePlanes, activePlanes, DisableRenderTarget, fillWords, hi]

end dmGraphics

namespace dmGraphics

/-! ### C5 -/

/-- `offSum vd lo n`: the sum of the element byte sizes of the `n`
declaration slots `lo, lo+1, ..., lo+n-1` (empty slots contribute 0, so
`offSum vd 0 i` is exactly "the sum of the element byte sizes of all
non-empty slots with ids below `i`"). -/
def offSum (vd : VertexDeclaration) : Nat → Nat → Nat
  | _lo, 0 => 0
  | lo, n + 1 => elementByteSize vd lo + offSum vd (lo + 1) n

theorem offSum_succ_top (vd : VertexDeclaration) (lo n : Nat) :
    offSum vd lo (n + 1) = offSum vd lo n + elementByteSize vd (lo + n) := by
  induction n generalizing lo with
  | zero => simp [offSum]
  | succ n ih =>
    calc offSum vd lo (n + 1 + 1)
        = elementByteSize vd lo + offSum vd (lo + 1) (n + 1) := rfl
      _ = elementByteSize vd lo + (offSum vd (lo + 1) n + elementByteSize vd (lo + 1 + n)) := by
          rw [ih]
      _ = offSum vd lo (n + 1) + elementByteSize vd (lo + (n + 1)) := by
          have h : lo + 1 + n = lo + (n + 1) := by omega
          rw [h]
          show elementByteSize vd lo + (offSum vd (lo + 1) n + _) =
            elementByteSize vd lo + offSum vd (lo + 1) n + _
          ring

/-- Accumulating with a `uint16_t` (mod `2^16` at every step) gives the plain
sum reduced mod `2^16`. -/
theorem foldl_mod (vd : VertexDeclaration) :
    ∀ (n acc : Nat), acc < 65536 →
      (List.range n).foldl (fun a i => (a + elementByteSize vd i) % 65536) acc =
        (acc + offSum vd 0 n) % 65536 := by
  intro n
  induction n with
  | zero =>
    intro acc h
    simp [offSum, Nat.mod_eq_of_lt h]
  | succ n ih =>
    intro acc h
    rw [List.range_succ, List.foldl_append, ih acc h]
    simp only [List.foldl_cons, List.foldl_nil]
    rw [Nat.mod_add_mod, offSum_succ_top]
    simp only [Nat.zero_add]
    omega

/-- The computed stride is the total declared vertex byte size reduced modulo
`2^16` (the accumulator is a `uint16_t`). -/
theorem computeStride_eq (vd : VertexDeclaration) :
    computeStride vd = offSum vd 0 MAX_VERTEX_STREAM_COUNT % 65536 := by
  have := foldl_mod vd MAX_VERTEX_STREAM_COUNT 0 (by norm_num)
  simpa [computeStride] using this

/-- Full characterisation of the binding loop `enableAux` on success:
slots outside the processed window (and empty slots inside it) are
untouched; each non-empty slot inside it is bound with the element byte
size, the given stride, its old transient buffer, and a source pointing at
`vb` at the accumulated offset `off + offSum vd i0 (j - i0)`. -/
theorem enableAux_spec (vd : VertexDeclaration) (vb : Nat → Nat) (stride : Nat) :
    ∀ (n i0 off : Nat) (s s' : Nat → VertexStream),
      enableAux vd vb stride n i0 off s = some s' →
      (∀ j, j < i0 ∨ i0 + n ≤ j → s' j = s j) ∧
      (∀ j, i0 ≤ j → j < i0 + n → (vd.m_Elements j).m_Size = 0 → s' j = s j) ∧
      (∀ j, i0 ≤ j → j < i0 + n → 0 < (vd.m_Elements j).m_Size →
        (s' j).m_Size = elementByteSize vd j ∧
        (s' j).m_Stride = stride ∧
        (s' j).m_Buffer = (s j).m_Buffer ∧
        ∃ f, (s' j).m_Source = some f ∧
          ∀ k, f k = vb (off + offSum vd i0 (j - i0) + k)) := by
  intro n
  induction n with
  | zero =>
    intro i0 off s s' h
    simp only [enableAux] at h
    cases h
    exact ⟨fun j _ => rfl, fun j _ _ _ => rfl, fun j h1 h2 _ => absurd h2 (by omega)⟩
  | succ n ih =>
    intro i0 off s s' h
    simp only [enableAux] at h
    by_cases hsz : 0 < (vd.m_Elements i0).m_Size
    · rw [if_pos hsz] at h
      cases hsv : SetVertexStream s i0 (vd.m_Elements i0).m_Size (vd.m_Elements i0).m_Type
          stride (some fun k => vb (off + k)) with
      | none =>
        rw [hsv] at h
        exact absurd h (by simp)
      | some s1 =>
        rw [hsv] at h
        simp only [SetVertexStream] at hsv
        by_cases hg : ((s i0).m_Source.isNone && (s i0).m_Buffer.isNone) = true
        · rw [if_pos hg] at hsv
          have hs1 : s1 = fun j =>
              if j = i0 then
                { m_Source := some fun k => vb (off + k)
                  m_Size := (vd.m_Elements i0).m_Size * TYPE_SIZE (vd.m_Elements i0).m_Type
                  m_Stride := stride
                  m_Buffer := (s i0).m_Buffer }
              else s j := by
            exact (Option.some.inj hsv).symm
          obtain ⟨H1, H2, H3⟩ := ih (i0 + 1) (off + elementByteSize vd i0) s1 s' h
          refine ⟨?_, ?_, ?_⟩
          · intro j hj
            rw [H1 j (by omega), hs1]
            have : ¬ j = i0 := by omega
            simp [this]
          · intro j hj1 hj2 hj0
            have hne : ¬ j = i0 := by
              intro hEq
              rw [hEq] at hj0
              omega
            rw [H2 j (by omega) (by omega) hj0, hs1]
            simp [hne]
          · intro j hj1 hj2 hj0
            by_cases hji : j = i0
            · subst hji
              have hsj : s' j = s1 j := H1 j (by omega)
              rw [hsj, hs1]
              simp only [if_pos rfl]
              refine ⟨rfl, rfl, rfl, ⟨_, rfl, ?_⟩⟩
              intro k
              simp [Nat.sub_self, offSum]
            · obtain ⟨Ha, Hb, Hc, f, hf, hfk⟩ := H3 j (by omega) (by omega) hj0
              have hbuf : (s1 j).m_Buffer = (s j).m_Buffer := by
                rw [hs1]
                simp [hji]
              refine ⟨Ha, Hb, by rw [Hc, hbuf], ⟨f, hf, ?_⟩⟩
              intro k
              rw [hfk k]
              congr 1
              have hm : j - i0 = (j - (i0 + 1)) + 1 := by omega
              rw [hm]
              rw [show offSum vd i0 ((j - (i0 + 1)) + 1)
                  = elementByteSize vd i0 + offSum vd (i0 + 1) (j - (i0 + 1)) from rfl]
              omega
        · rw [if_neg hg] at hsv
          exact absurd hsv (by simp)
    · rw [if_neg hsz] at h
      obtain ⟨H1, H2, H3⟩ := ih (i0 + 1) off s s' h
      have hz : (vd.m_Elements i0).m_Size = 0 := by omega
      refine ⟨?_, ?_, ?_⟩
      · intro j hj
        rcases hj with hj | hj
        · exact H1 j (by omega)
        · exact H1 j (by omega)
      · intro j hj1 hj2 hj0
        by_cases hji : j = i0
        · subst hji
          exact H1 j (by omega)
        · exact H2 j (by omega) (by omega) hj0
      · intro j hj1 hj2 hj0
        have hne : ¬ j = i0 := by
          intro hEq
          rw [hEq] at hj0
          omega
        obtain ⟨Ha, Hb, Hc, f, hf, hfk⟩ := H3 j (by omega) (by omega) hj0
        refine ⟨Ha, Hb, Hc, ⟨f, hf, ?_⟩⟩
        intro k
        rw [hfk k]
        congr 1
        have hm : j - i0 = (j - (i0 + 1)) + 1 := by omega
        rw [hm]
        rw [show offSum vd i0 ((j - (i0 + 1)) + 1)
            = elementByteSize vd i0 + offSum vd (i0 + 1) (j - (i0 + 1)) from rfl]
        have : elementByteSize vd i0 = 0 := by
          simp [elementByteSize, hz]
        omega

/-- A declaration whose single non-empty slot (slot 0) declares 16384 float
components: its total byte size is `16384 * 4 = 65536 = 2^16`. -/
def vdBig : VertexDeclaration :=
  { m_Elements := fun i =>
      if i = 0 then { m_Size := 16384, m_Type := Typ.float }
      else { m_Size := 0, m_Type := Typ.byte } }

/-- Claim C5 counterexample: enabling `vdBig` binds slot 0 with stride 0,
because the `uint16_t` stride accumulator wraps: the claimed stride — the
plain sum over all 32 slots of component-count × type byte size — is
`65536`, not `0`. -/
theorem C5_counterexample :
    (EnableVertexDeclaration (fun _ => emptyStream) vdBig (fun p => p)).map
        (fun s => (s 0).m_Stride) = some 0 ∧
    offSum vdBig 0 MAX_VERTEX_STREAM_COUNT = 65536 ∧
    (0 : Nat) ≠ 65536 := by
  refine ⟨rfl, by decide, by decide⟩

/-- Claim C5 as amended: enabling a declaration `D` over a vertex buffer `VB`
computes a single stride equal to the sum over all 32 stream slots of
component-count × byte-size-of-type *reduced modulo `2^16`* (the accumulator
is a `uint16_t`; the plain sum whenever the total is below 65536), and, in
ascending slot order, binds each non-empty slot at a byte offset into `VB`
equal to the sum of the element byte sizes of all non-empty slots with
smaller ids, every binding receiving that same stride (and recording the
slot's element byte size). -/
theorem C5_amended_enable_layout (s : Nat → VertexStream) (vd : VertexDeclaration)
    (vb : Nat → Nat) (s' : Nat → VertexStream)
    (h : EnableVertexDeclaration s vd vb = some s') :
    computeStride vd = offSum vd 0 MAX_VERTEX_STREAM_COUNT % 65536 ∧
    ∀ i, i < MAX_VERTEX_STREAM_COUNT → 0 < (vd.m_Elements i).m_Size →
      (s' i).m_Stride = computeStride vd ∧
      (s' i).m_Size = elementByteSize vd i ∧
      ∃ f, (s' i).m_Source = some f ∧ ∀ k, f k = vb (offSum vd 0 i + k) := by
  refine ⟨computeStride_eq vd, ?_⟩
  intro i hi hsz
  obtain ⟨H1, H2, H3⟩ :=
    enableAux_spec vd vb (computeStride vd) MAX_VERTEX_STREAM_COUNT 0 0 s s' h
  obtain ⟨Ha, Hb, Hc, f, hf, hfk⟩ := H3 i (Nat.zero_le i) (by omega) hsz
  refine ⟨Hb, Ha, ⟨f, hf, ?_⟩⟩
  intro k
  rw [hfk k]
  congr 1
  rw [Nat.sub_zero]
  omega

/-- The spec's own example layout: slot 0 = 3 floats (12 bytes), slot 1 = 4
unsigned bytes (4 bytes); interleaved stride 16. -/
def vdW : VertexDeclaration :=
  { m_Elements := fun i =>
      if i = 0 then { m_Size := 3, m_Type := Typ.float }
      else if i = 1 then { m_Size := 4, m_Type := Typ.ubyte }
      else { m_Size := 0, m_Type := Typ.byte } }

/-- The slot table produced by enabling `vdW` over the identity byte buffer
on a fully disabled device. -/
def enW : Nat → VertexStream :=
  (EnableVertexDeclaration (fun _ => emptyStream) vdW (fun p => p)).getD fun _ => emptyStream

/-- Claim C5 witness: enabling the position/colour declaration succeeds;
slot 1 is bound with stride `computeStride vdW = 16` and at byte offset
`offSum vdW 0 1 = 12`, the byte size of the one non-empty smaller slot. -/
theorem C5_amended_enable_layout_witness :
    EnableVertexDeclaration (fun _ => emptyStream) vdW (fun p => p) = some enW ∧
    (1 < MAX_VERTEX_STREAM_COUNT ∧ 0 < (vdW.m_Elements 1).m_Size) ∧
    ((enW 1).m_Stride = computeStride vdW ∧
      (enW 1).m_Size = elementByteSize vdW 1 ∧
      ∃ f, (enW 1).m_Source = some f ∧ ∀ k, f k = (fun p => p) (offSum vdW 0 1 + k)) ∧
    computeStride vdW = 16 ∧ offSum vdW 0 1 = 12 := by
  refine ⟨rfl, ⟨by decide, by decide⟩, ?_, by decide, by decide⟩
  exact (C5_amended_enable_layout (fun _ => emptyStream) vdW (fun p => p) enW rfl).2 1
    (by decide) (by decide)

end dmGraphics

namespace dmGraphics

/-! ### C1 and C9: the draw engine -/

theorem streamsReady_spec (s : Nat → VertexStream) (h : streamsReady s = true) :
    ∀ j, j < MAX_VERTEX_STREAM_COUNT → 0 < (s j).m_Size →
      (s j).m_Source.isSome = true ∧ (s j).m_Buffer.isSome = true := by
  intro j hj hsz
  have h2 := (List.all_eq_true.mp h) j (List.mem_range.mpr hj)
  simp only [Bool.or_eq_true, beq_iff_eq, Bool.and_eq_true] at h2
  rcases h2 with h2 | h2
  · omega
  · exact h2

theorem drawStep_ready (t : Typ) (ib : Nat → Nat) (s s' : Nat → VertexStream) (i : Nat)
    (h : drawStep t ib s i = some s') : streamsReady s = true := by
  cases hidx : GetIndex t ib i with
  | none =>
    simp only [drawStep, hidx] at h
    replace h : (none : Option (Nat → VertexStream)) = some s' := h
    exact absurd h (by simp)
  | some idx =>
    simp only [drawStep, hidx] at h
    replace h : (if streamsReady s = true then
        some fun j =>
          if j < MAX_VERTEX_STREAM_COUNT ∧ 0 < (s j).m_Size then gatherStream i idx (s j)
          else s j
        else none) = some s' := h
    by_cases hr : streamsReady s = true
    · exact hr
    · rw [if_neg hr] at h
      exact absurd h (by simp)

theorem drawStep_eq (t : Typ) (ib : Nat → Nat) (s s' : Nat → VertexStream) (i idx : Nat)
    (h : drawStep t ib s i = some s') (hidx : GetIndex t ib i = some idx) :
    s' = fun j =>
      if j < MAX_VERTEX_STREAM_COUNT ∧ 0 < (s j).m_Size then gatherStream i idx (s j)
      else s j := by
  simp only [drawStep, hidx] at h
  replace h : (if streamsReady s = true then
      some fun j =>
        if j < MAX_VERTEX_STREAM_COUNT ∧ 0 < (s j).m_Size then gatherStream i idx (s j)
        else s j
      else none) = some s' := h
  by_cases hr : streamsReady s = true
  · rw [if_pos hr] at h
    exact (Option.some.inj h).symm
  · rw [if_neg hr] at h
    exact absurd h (by simp)

theorem gatherStream_fields (i idx : Nat) (vs : VertexStream) :
    (gatherStream i idx vs).m_Source = vs.m_Source ∧
    (gatherStream i idx vs).m_Size = vs.m_Size ∧
    (gatherStream i idx vs).m_Stride = vs.m_Stride ∧
    ((vs.m_Buffer).isSome = true → ((gatherStream i idx vs).m_Buffer).isSome = true) := by
  cases hs : vs.m_Source <;> cases hb : vs.m_Buffer <;>
    simp [gatherStream, hs, hb]

theorem drawStep_pres (t : Typ) (ib : Nat → Nat) (s s' : Nat → VertexStream) (i : Nat)
    (h : drawStep t ib s i = some s') :
    ∀ j, (s' j).m_Source = (s j).m_Source ∧
      (s' j).m_Size = (s j).m_Size ∧
      (s' j).m_Stride = (s j).m_Stride ∧
      ((s j).m_Buffer.isSome = true → (s' j).m_Buffer.isSome = true) ∧
      ((s j).m_Size = 0 → s' j = s j) ∧
      (MAX_VERTEX_STREAM_COUNT ≤ j → s' j = s j) := by
  cases hidx : GetIndex t ib i with
  | none =>
    simp only [drawStep, hidx] at h
    replace h : (none : Option (Nat → VertexStream)) = some s' := h
    exact absurd h (by simp)
  | some idx =>
    have hs' := drawStep_eq t ib s s' i idx h hidx
    intro j
    have hsj : s' j =
        if j < MAX_VERTEX_STREAM_COUNT ∧ 0 < (s j).m_Size then gatherStream i idx (s j)
        else s j := by
      rw [hs']
    by_cases hc : j < MAX_VERTEX_STREAM_COUNT ∧ 0 < (s j).m_Size
    · rw [if_pos hc] at hsj
      rw [hsj]
      obtain ⟨g1, g2, g3, g4⟩ := gatherStream_fields i idx (s j)
      exact ⟨g1, g2, g3, g4, fun h0 => absurd h0 (by omega), fun hM => absurd hM (by omega)⟩
    · rw [if_neg hc] at hsj
      rw [hsj]
      exact ⟨rfl, rfl, rfl, id, fun _ => rfl, fun _ => rfl⟩

theorem drawLoop_pres (t : Typ) (ib : Nat → Nat) :
    ∀ (n : Nat) (s s' : Nat → VertexStream), drawLoop t ib n s = some s' →
    ∀ j, (s' j).m_Source = (s j).m_Source ∧
      (s' j).m_Size = (s j).m_Size ∧
      (s' j).m_Stride = (s j).m_Stride ∧
      ((s j).m_Buffer.isSome = true → (s' j).m_Buffer.isSome = true) ∧
      ((s j).m_Size = 0 → s' j = s j) ∧
      (MAX_VERTEX_STREAM_COUNT ≤ j → s' j = s j) := by
  intro n
  induction n with
  | zero =>
    intro s s' h j
    simp only [drawLoop] at h
    cases h
    exact ⟨rfl, rfl, rfl, id, fun _ => rfl, fun _ => rfl⟩
  | succ n ih =>
    intro s s' h j
    simp only [drawLoop] at h
    cases hL : drawLoop t ib n s with
    | none =>
      rw [hL] at h
      replace h : (none : Option (Nat → VertexStream)) = some s' := h
      exact absurd h (by simp)
    | some s1 =>
      rw [hL] at h
      replace h : drawStep t ib s1 n = some s' := h
      obtain ⟨a1, a2, a3, a4, a5, a6⟩ := ih s s1 hL j
      obtain ⟨b1, b2, b3, b4, b5, b6⟩ := drawStep_pres t ib s1 s' n h j
      refine ⟨by rw [b1, a1], by rw [b2, a2], by rw [b3, a3],
        fun hb => b4 (a4 hb), fun h0 => ?_, fun hM => ?_⟩
      · rw [b5 (by rw [a2, h0]), a5 h0]
      · rw [b6 hM, a6 hM]

theorem drawStep_write (t : Typ) (ib : Nat → Nat) (s s' : Nat → VertexStream) (i idx : Nat)
    (h : drawStep t ib s i = some s') (hidx : GetIndex t ib i = some idx)
    (j : Nat) (hj : j < MAX_VERTEX_STREAM_COUNT) (hsz : 0 < (s j).m_Size)
    (src buf : Nat → Nat) (hsrc : (s j).m_Source = some src)
    (hbuf : (s j).m_Buffer = some buf) :
    (s' j).m_Buffer =
      some (memcpy buf (i * (s j).m_Size) src (idx * (s j).m_Stride) (s j).m_Size) := by
  have hs' := drawStep_eq t ib s s' i idx h hidx
  have hsj : s' j =
      if j < MAX_VERTEX_STREAM_COUNT ∧ 0 < (s j).m_Size then gatherStream i idx (s j)
      else s j := by
    rw [hs']
  rw [if_pos ⟨hj, hsz⟩] at hsj
  rw [hsj]
  simp [gatherStream, hsrc, hbuf]

/-- The gather-loop invariant: after the first `n` iterations, for every
already-processed draw position `i < n` and every active in-range slot, the
compaction-buffer bytes `[i*size, (i+1)*size)` hold the `size` source bytes
at `index_i * stride` (iterations after `i` write only at or above
`(i+1)*size` and do not disturb them). -/
theorem drawLoop_gather (t : Typ) (ib : Nat → Nat) :
    ∀ (n : Nat) (s s' : Nat → VertexStream), drawLoop t ib n s = some s' →
    ∀ i idx, i < n → GetIndex t ib i = some idx →
    ∀ j, j < MAX_VERTEX_STREAM_COUNT → 0 < (s j).m_Size →
    ∀ src buf0, (s j).m_Source = some src → (s j).m_Buffer = some buf0 →
    ∃ buf, (s' j).m_Buffer = some buf ∧
      ∀ k, k < (s j).m_Size →
        buf (i * (s j).m_Size + k) = src (idx * (s j).m_Stride + k) := by
  intro n
  induction n with
  | zero =>
    intro s s' h i idx hi
    exact absurd hi (by omega)
  | succ n ih =>
    intro s s' h i idx hi hidx j hj hsz src buf0 hsrc hbuf0
    simp only [drawLoop] at h
    cases hL : drawLoop t ib n s with
    | none =>
      rw [hL] at h
      replace h : (none : Option (Nat → VertexStream)) = some s' := h
      exact absurd h (by simp)
    | some s1 =>
      rw [hL] at h
      replace h : drawStep t ib s1 n = some s' := h
      obtain ⟨a1, a2, a3, a4, a5, a6⟩ := drawLoop_pres t ib n s s1 hL j
      have hsz1 : 0 < (s1 j).m_Size := by
        rw [a2]
        exact hsz
      have hsrc1 : (s1 j).m_Source = some src := by
        rw [a1]
        exact hsrc
      have hbuf1 : ((s1 j).m_Buffer).isSome = true := a4 (by rw [hbuf0]; rfl)
      obtain ⟨buf1, hbuf1e⟩ : ∃ b, (s1 j).m_Buffer = some b :=
        Option.isSome_iff_exists.mp hbuf1
      by_cases hin : i < n
      · obtain ⟨buf, hbuf, hval⟩ := ih s s1 hL i idx hin hidx j hj hsz src buf0 hsrc hbuf0
        have hbeq : buf1 = buf := by
          rw [hbuf] at hbuf1e
          exact (Option.some.inj hbuf1e).symm
        cases hidxn : GetIndex t ib n with
        | none =>
          simp only [drawStep, hidxn] at h
          replace h : (none : Option (Nat → VertexStream)) = some s' := h
          exact absurd h (by simp)
        | some idxn =>
          have hw := drawStep_write t ib s1 s' n idxn h hidxn j hj hsz1 src buf1 hsrc1 hbuf1e
          rw [a2, a3] at hw
          refine ⟨_, hw, ?_⟩
          intro k hk
          have hb : i * (s j).m_Size + k < n * (s j).m_Size := by
            have h1 : (i + 1) * (s j).m_Size ≤ n * (s j).m_Size :=
              Nat.mul_le_mul (by omega) (le_refl _)
            have h2 : i * (s j).m_Size + k < (i + 1) * (s j).m_Size := by
              rw [Nat.succ_mul]
              omega
            omega
          rw [memcpy_outside _ _ _ _ _ _ (Or.inl hb), hbeq]
          exact hval k hk
      · have hieq : i = n := by omega
        subst hieq
        have hw := drawStep_write t ib s1 s' i idx h hidx j hj hsz1 src buf1 hsrc1 hbuf1e
        rw [a2, a3] at hw
        refine ⟨_, hw, ?_⟩
        intro k hk
        rw [memcpy_inside _ _ _ _ _ _ (Nat.le_add_right _ _) (by omega)]
        congr 1
        omega

theorem drawLoop_ready (t : Typ) (ib : Nat → Nat) :
    ∀ (n : Nat) (s s' : Nat → VertexStream), drawLoop t ib (n + 1) s = some s' →
      streamsReady s = true := by
  intro n
  induction n with
  | zero =>
    intro s s' h
    simp only [drawLoop] at h
    replace h : drawStep t ib s 0 = some s' := h
    exact drawStep_ready t ib s s' 0 h
  | succ n ih =>
    intro s s' h
    replace h : (match drawLoop t ib (n + 1) s with
      | none => none
      | some s1 => drawStep t ib s1 (n + 1)) = some s' := h
    cases hL : drawLoop t ib (n + 1) s with
    | none =>
      rw [hL] at h
      replace h : (none : Option (Nat → VertexStream)) = some s' := h
      exact absurd h (by simp)
    | some s1 =>
      exact ih s s1 hL

theorem allocStreams_fields (s : Nat → VertexStream) (j : Nat) :
    ((allocStreams s) j).m_Source = (s j).m_Source ∧
    ((allocStreams s) j).m_Size = (s j).m_Size ∧
    ((allocStreams s) j).m_Stride = (s j).m_Stride ∧
    (j < MAX_VERTEX_STREAM_COUNT → 0 < (s j).m_Size →
      ((allocStreams s) j).m_Buffer = some fun _ => 0) ∧
    ((s j).m_Size = 0 → (allocStreams s) j = s j) ∧
    (MAX_VERTEX_STREAM_COUNT ≤ j → (allocStreams s) j = s j) := by
  refine ⟨?_, ?_, ?_, ?_, ?_, ?_⟩ <;>
    by_cases hc : j < MAX_VERTEX_STREAM_COUNT ∧ 0 < (s j).m_Size
  · simp [allocStreams, hc]
  · simp [allocStreams, hc]
  · simp [allocStreams, hc]
  · simp [allocStreams, hc]
  · simp [allocStreams, hc]
  · simp [allocStreams, hc]
  · intro h1 h2
    simp [allocStreams, hc]
  · intro h1 h2
    exact absurd ⟨h1, h2⟩ hc
  · intro h0
    omega
  · intro h0
    simp [allocStreams, hc]
  · intro hM
    omega
  · intro hM
    simp [allocStreams, hc]

end dmGraphics

namespace dmGraphics

/-- Claim C1: for every device state and every successful
`draw-indexed(prim, count, index-type, IB)` call, for each active stream
(recorded element size > 0, in range) and every draw position `i < count`,
the bytes of that stream's compaction buffer at `[i*size, (i+1)*size)` equal
the `size` bytes at `source + idx_i * stride` in the stream's source data,
where `idx_i` is the decoded `i`-th index of `IB` (so the identity index
sequence reproduces source vertex order and `[2,0,1]` permutes the
compaction buffers accordingly — see the witness). -/
theorem C1_draw_indexed_gather (d : Device) (prim count : Nat) (t : Typ) (ib : Nat → Nat)
    (d' : Device) (h : DrawElements d prim count t ib = some d')
    (i : Nat) (hi : i < count) (idx : Nat) (hidx : GetIndex t ib i = some idx)
    (j : Nat) (hj : j < MAX_VERTEX_STREAM_COUNT)
    (hact : 0 < (d.m_VertexStreams j).m_Size) :
    ∃ src buf, (d.m_VertexStreams j).m_Source = some src ∧
      (d'.m_VertexStreams j).m_Buffer = some buf ∧
      ∀ k, k < (d.m_VertexStreams j).m_Size →
        buf (i * (d.m_VertexStreams j).m_Size + k) =
          src (idx * (d.m_VertexStreams j).m_Stride + k) := by
  simp only [DrawElements] at h
  cases hds : drawStreams d.m_VertexStreams count t ib with
  | none =>
    rw [hds] at h
    simp at h
  | some vs =>
    rw [hds] at h
    replace h : some { d with m_VertexStreams := vs } = some d' := h
    obtain rfl : ({ d with m_VertexStreams := vs } : Device) = d' := Option.some.inj h
    replace hds : drawLoop t ib count (allocStreams d.m_VertexStreams) = some vs := hds
    obtain ⟨m, rfl⟩ : ∃ m, count = m + 1 := ⟨count - 1, by omega⟩
    have ready := drawLoop_ready t ib m (allocStreams d.m_VertexStreams) vs hds
    obtain ⟨A1, A2, A3, A4, A5, A6⟩ := allocStreams_fields d.m_VertexStreams j
    have hszA : 0 < ((allocStreams d.m_VertexStreams) j).m_Size := by
      rw [A2]
      exact hact
    have hsomeSrc := (streamsReady_spec (allocStreams d.m_VertexStreams) ready j hj hszA).1
    obtain ⟨src, hsrcA⟩ := Option.isSome_iff_exists.mp hsomeSrc
    have hsrc0 : (d.m_VertexStreams j).m_Source = some src := by
      rw [← A1]
      exact hsrcA
    have hbufA : ((allocStreams d.m_VertexStreams) j).m_Buffer = some fun _ => 0 :=
      A4 hj hact
    obtain ⟨buf, hbuf, hval⟩ := drawLoop_gather t ib (m + 1)
      (allocStreams d.m_VertexStreams) vs hds i idx hi hidx j hj hszA
      src (fun _ => 0) hsrcA hbufA
    refine ⟨src, buf, hsrc0, hbuf, ?_⟩
    intro k hk
    have hkA : k < ((allocStreams d.m_VertexStreams) j).m_Size := by
      rw [A2]
      exact hk
    have hv := hval k hkA
    rw [A2, A3] at hv
    exact hv

/-- Claim C9: a successful `DrawElements` call modifies, for each active
stream, only that stream's transient compaction buffer; every stream's
source pointer, recorded element size and stride (and every inactive
stream's whole slot), the bound vertex/fragment programs, the constant
register banks, the write masks, the display dimensions, the default
framebuffer and the active-plane pointer are all unchanged by the call. -/
theorem C9_draw_frame_effect (d : Device) (prim count : Nat) (t : Typ) (ib : Nat → Nat)
    (d' : Device) (h : DrawElements d prim count t ib = some d') :
    (∀ j, (d'.m_VertexStreams j).m_Source = (d.m_VertexStreams j).m_Source ∧
      (d'.m_VertexStreams j).m_Size = (d.m_VertexStreams j).m_Size ∧
      (d'.m_VertexStreams j).m_Stride = (d.m_VertexStreams j).m_Stride ∧
      ((d.m_VertexStreams j).m_Size = 0 → d'.m_VertexStreams j = d.m_VertexStreams j)) ∧
    d'.m_VertexProgram = d.m_VertexProgram ∧
    d'.m_FragmentProgram = d.m_FragmentProgram ∧
    d'.m_VertexProgramRegisters = d.m_VertexProgramRegisters ∧
    d'.m_FragmentProgramRegisters = d.m_FragmentProgramRegisters ∧
    d'.m_RedMask = d.m_RedMask ∧
    d'.m_GreenMask = d.m_GreenMask ∧
    d'.m_BlueMask = d.m_BlueMask ∧
    d'.m_AlphaMask = d.m_AlphaMask ∧
    d'.m_DepthMask = d.m_DepthMask ∧
    d'.m_IndexMask = d.m_IndexMask ∧
    d'.m_StencilMask = d.m_StencilMask ∧
    d'.m_DisplayWidth = d.m_DisplayWidth ∧
    d'.m_DisplayHeight = d.m_DisplayHeight ∧
    d'.m_RenderBuffer = d.m_RenderBuffer ∧
    d'.m_FrameBuffer = d.m_FrameBuffer := by
  simp only [DrawElements] at h
  cases hds : drawStreams d.m_VertexStreams count t ib with
  | none =>
    rw [hds] at h
    simp at h
  | some vs =>
    rw [hds] at h
    replace h : some { d with m_VertexStreams := vs } = some d' := h
    obtain rfl : ({ d with m_VertexStreams := vs } : Device) = d' := Option.some.inj h
    replace hds : drawLoop t ib count (allocStreams d.m_VertexStreams) = some vs := hds
    refine ⟨?_, rfl, rfl, rfl, rfl, rfl, rfl, rfl, rfl, rfl, rfl, rfl, rfl, rfl, rfl, rfl⟩
    intro j
    obtain ⟨a1, a2, a3, a4, a5, a6⟩ :=
      drawLoop_pres t ib count (allocStreams d.m_VertexStreams) vs hds j
    obtain ⟨A1, A2, A3, A4, A5, A6⟩ := allocStreams_fields d.m_VertexStreams j
    refine ⟨a1.trans A1, a2.trans A2, a3.trans A3, fun h0 => ?_⟩
    have hA : ((allocStreams d.m_VertexStreams) j).m_Size = 0 := by
      rw [A2]
      exact h0
    exact (a5 hA).trans (A5 h0)

/-- The identity source buffer used by the draw witnesses: byte `p` holds
value `p`, so gathered bytes directly reveal their source offsets. -/
def srcW : Nat → Nat := fun p => p

/-- One active stream: 4-byte elements at stride 4 over `srcW`. -/
def streamW0 : VertexStream :=
  { m_Source := some srcW, m_Size := 4, m_Stride := 4, m_Buffer := none }

/-- A 2×2 device with stream slot 0 bound to `streamW0`. -/
def devW : Device :=
  { NewDevice 2 2 with m_VertexStreams := fun j => if j = 0 then streamW0 else emptyStream }

/-- The unsigned-16 little-endian index buffer `[2, 0, 1]`. -/
def ibW : Nat → Nat := fun b => if b = 0 then 2 else if b = 4 then 1 else 0

/-- The device after `draw-indexed(count = 3, unsigned-16, ibW)` on `devW`. -/
def devWD : Device := (DrawElements devW 0 3 Typ.ushort ibW).getD devW

/-- Claim C1 witness: drawing 3 indices of the permutation `[2,0,1]` on the
bound stream succeeds; draw position 0 decodes to index 2, and the
compaction bytes `[0*4, 1*4)` equal the source bytes at `2 * stride`. -/
theorem C1_draw_indexed_gather_witness :
    DrawElements devW 0 3 Typ.ushort ibW = some devWD ∧
    (0 : Nat) < 3 ∧
    GetIndex Typ.ushort ibW 0 = some 2 ∧
    0 < MAX_VERTEX_STREAM_COUNT ∧
    0 < (devW.m_VertexStreams 0).m_Size ∧
    (∃ src buf, (devW.m_VertexStreams 0).m_Source = some src ∧
      (devWD.m_VertexStreams 0).m_Buffer = some buf ∧
      ∀ k, k < (devW.m_VertexStreams 0).m_Size →
        buf (0 * (devW.m_VertexStreams 0).m_Size + k) =
          src (2 * (devW.m_VertexStreams 0).m_Stride + k)) := by
  refine ⟨rfl, by decide, by decide, by decide, by decide, ?_⟩
  exact C1_draw_indexed_gather devW 0 3 Typ.ushort ibW devWD rfl 0 (by decide) 2 (by decide)
    0 (by decide) (by decide)

/-- Claim C9 witness: the same concrete draw leaves every non-buffer
component of the device state unchanged. -/
theorem C9_draw_frame_effect_witness :
    DrawElements devW 0 3 Typ.ushort ibW = some devWD ∧
    ((∀ j, (devWD.m_VertexStreams j).m_Source = (devW.m_VertexStreams j).m_Source ∧
      (devWD.m_VertexStreams j).m_Size = (devW.m_VertexStreams j).m_Size ∧
      (devWD.m_VertexStreams j).m_Stride = (devW.m_VertexStreams j).m_Stride ∧
      ((devW.m_VertexStreams j).m_Size = 0 →
        devWD.m_VertexStreams j = devW.m_VertexStreams j)) ∧
    devWD.m_VertexProgram = devW.m_VertexProgram ∧
    devWD.m_FragmentProgram = devW.m_FragmentProgram ∧
    devWD.m_VertexProgramRegisters = devW.m_VertexProgramRegisters ∧
    devWD.m_FragmentProgramRegisters = devW.m_FragmentProgramRegisters ∧
    devWD.m_RedMask = devW.m_RedMask ∧
    devWD.m_GreenMask = devW.m_GreenMask ∧
    devWD.m_BlueMask = devW.m_BlueMask ∧
    devWD.m_AlphaMask = devW.m_AlphaMask ∧
    devWD.m_DepthMask = devW.m_DepthMask ∧
    devWD.m_IndexMask = devW.m_IndexMask ∧
    devWD.m_StencilMask = devW.m_StencilMask ∧
    devWD.m_DisplayWidth = devW.m_DisplayWidth ∧
    devWD.m_DisplayHeight = devW.m_DisplayHeight ∧
    devWD.m_RenderBuffer = devW.m_RenderBuffer ∧
    devWD.m_FrameBuffer = devW.m_FrameBuffer) := by
  exact ⟨rfl, C9_draw_frame_effect devW 0 3 Typ.ushort ibW devWD rfl⟩

end dmGraphics
